import Mathlib

set_option maxRecDepth 100000

/-!
Verification of the transcript-chunking and meeting-minutes synthesis core of
`backend/meeting_minutes.py`.

Python strings are modelled as `List Char`; Python machine behaviour that the
core relies on (string `split`, `strip`, the two regexes, `json.loads`,
`dict.fromkeys`, the tenacity retry decorator) is embedded explicitly below.
External completion calls are modelled by an oracle `Nat → Except Exn (List Char)`
giving the outcome of the i-th call made by one synthesis invocation.
-/

namespace MeetingMinutes

/-- Python `\s` / `str.strip` whitespace set (ASCII fragment). -/
def isSpace (c : Char) : Bool :=
  c = ' ' || c = '\t' || c = '\n' || c = '\r' || c = '\x0b' || c = '\x0c'

/-- Python `str.strip()`: drop leading and trailing whitespace. -/
def pyStrip (l : List Char) : List Char :=
  ((l.dropWhile isSpace).reverse.dropWhile isSpace).reverse

/-- Python `str.strip('"')`: drop leading and trailing double quotes. -/
def stripQuotes (l : List Char) : List Char :=
  ((l.dropWhile (· = '"')).reverse.dropWhile (· = '"')).reverse

/-- Python `text.split(sep)` for a single-character separator: every occurrence
splits, empty parts are kept, `"".split(c) == [""]`. -/
def splitChar (sep : Char) : List Char → List (List Char)
  | [] => [[]]
  | c :: rest =>
    if c = sep then [] :: splitChar sep rest
    else
      match splitChar sep rest with
      | [] => [[c]]
      | p :: ps => (c :: p) :: ps

/-- `estimate_tokens`: the `len(text) // 4` fallback estimator (the tiktoken
branch is an external library; the module works identically with either
estimator and the fallback is the deterministic one). -/
def estimate_tokens (text : List Char) : Nat :=
  text.length / 4

/-- Sentence-ending punctuation used by the regex `(?<=[.!?])\s+`. -/
def isPunct (c : Char) : Bool :=
  c = '.' || c = '!' || c = '?'

/-- Worker for `splitSentences`: `cur` holds the current part reversed; a
boundary is a whitespace character whose predecessor is `.`, `!` or `?`;
the whole whitespace run is consumed (greedy `\s+`). -/
def sentSplitAux : Nat → List Char → List Char → List (List Char)
  | 0, cur, _ => [cur.reverse]
  | _ + 1, cur, [] => [cur.reverse]
  | fuel + 1, cur, c :: rest =>
    if isSpace c && (match cur with | p :: _ => isPunct p | [] => false) then
      cur.reverse :: sentSplitAux fuel [] (rest.dropWhile isSpace)
    else
      sentSplitAux fuel (c :: cur) rest

/-- Python `re.split(r'(?<=[.!?])\s+', s)`. -/
def splitSentences (l : List Char) : List (List Char) :=
  sentSplitAux l.length [] l

/-- `get_token_param_name`: substring containment test. -/
def containsSub (pat : List Char) (s : List Char) : Bool :=
  s.tails.any (fun t => pat.isPrefixOf t)

/-- `get_token_param_name(model)`: `newer_models = ['o3', 'gpt-4o', 'gpt-4.5']`;
if any is a substring of `model` return `"max_completion_tokens"` else
`"max_tokens"`. -/
def get_token_param_name (model : List Char) : List Char :=
  if containsSub "o3".data model || containsSub "gpt-4o".data model
      || containsSub "gpt-4.5".data model then
    "max_completion_tokens".data
  else
    "max_tokens".data

/-- Decimal digits of a natural number (most significant first). -/
def natDigitsAux : Nat → Nat → List Char
  | 0, _ => []
  | fuel + 1, n =>
    if n < 10 then [Char.ofNat (48 + n)]
    else natDigitsAux fuel (n / 10) ++ [Char.ofNat (48 + n % 10)]

def natDigits (n : Nat) : List Char :=
  natDigitsAux (n + 1) n

/-- Python `f"{x:02d}"`. -/
def pad2 (n : Nat) : List Char :=
  if n < 10 then '0' :: natDigits n else natDigits n

/-- `format_duration(duration_seconds)`: `HH:MM:SS` for at least one hour,
zero-padded `MM:SS` below (the `try/except` cannot fire for a natural-number
duration, so it is not represented). -/
def format_duration (duration_seconds : Nat) : List Char :=
  if duration_seconds ≥ 3600 then
    pad2 (duration_seconds / 3600) ++ [':'] ++ pad2 (duration_seconds % 3600 / 60)
      ++ [':'] ++ pad2 (duration_seconds % 60)
  else
    pad2 (duration_seconds / 60) ++ [':'] ++ pad2 (duration_seconds % 60)


/-! ## Transcript chunker (`chunk_transcript`) -/

/-- `'\n'.join(pieces)`. -/
def joinNL (pieces : List (List Char)) : List Char :=
  (pieces.intersperse ['\n']).flatten

/-- Chunker loop state: closed chunks are kept as the lists of pieces that
were accumulated into `current_chunk` (joining with `'\n'` happens at the
end); `curLen` mirrors `current_length`, `ov` mirrors `overlap_text`. -/
structure CState where
  chunks : List (List (List Char))
  cur : List (List Char)
  curLen : Nat
  ov : List Char
deriving DecidableEq

/-- Sum of the per-piece token estimates of a chunk, the quantity the
algorithm tracks in `current_length`. -/
def sumEst (c : List (List Char)) : Nat :=
  (c.map estimate_tokens).sum

/-- One iteration of the inner sentence loop (`for sentence in sentences`). -/
def sChunkStep (maxT : Nat) (st : CState) (s : List Char) : CState :=
  if st.curLen + estimate_tokens s ≤ maxT then
    { st with cur := st.cur ++ [s], curLen := st.curLen + estimate_tokens s, ov := s }
  else
    { chunks := st.chunks ++ (if st.cur.isEmpty then [] else [st.cur]),
      cur := [s], curLen := estimate_tokens s, ov := s }

/-- The backwards greedy overlap builder (`for s in reversed(sentences)` with
`break`), returning the final `candidate`. -/
def overlapLoop (ovT : Nat) : List (List Char) → List Char → List Char
  | [], cand => cand
  | s :: rest, cand =>
    if estimate_tokens (s ++ [' '] ++ cand) ≤ ovT then
      overlapLoop ovT rest (s ++ [' '] ++ cand)
    else cand

def overlapCandidate (ovT : Nat) (sentences : List (List Char)) : List Char :=
  overlapLoop ovT sentences.reverse []

/-- One iteration of `for paragraph in paragraphs`. -/
def pChunkStep (maxT ovT : Nat) (st : CState) (p : List Char) : CState :=
  if (pyStrip p).isEmpty then st
  else
    let tokens := estimate_tokens p
    if st.curLen + tokens > maxT && !st.cur.isEmpty then
      { chunks := st.chunks ++ [st.cur],
        cur := if 0 < ovT && !st.ov.isEmpty then [st.ov, p] else [p],
        curLen := (if 0 < ovT && !st.ov.isEmpty then estimate_tokens st.ov else 0) + tokens,
        ov := p }
    else if tokens > maxT then
      (splitSentences p).foldl (sChunkStep maxT) st
    else
      let st' := { st with cur := st.cur ++ [p], curLen := st.curLen + tokens }
      if estimate_tokens p ≤ ovT then { st' with ov := p }
      else
        let cand := overlapCandidate ovT (splitSentences p)
        if cand.isEmpty then st' else { st' with ov := pyStrip cand }

/-- The chunks accumulated by the paragraph loop (before `'\n'`-joining and
before the 12-chunk consolidation post-pass), each as its list of pieces. -/
def chunksRaw (transcript_text : List Char) (maxT ovT : Nat) : List (List (List Char)) :=
  let st := (splitChar '\n' transcript_text).foldl (pChunkStep maxT ovT) ⟨[], [], 0, []⟩
  st.chunks ++ (if st.cur.isEmpty then [] else [st.cur])

/-- The consolidation loop: `for i in range(0, len(chunks), target)` appending
`'\n'.join(chunks[i:i+target])` and breaking once 12 chunks were produced.
`fuel` is an upper bound on the number of iterations; it never runs out for
the `target ≥ 1` values the caller produces. -/
def consolidateLoop (target : Nat) : Nat → Nat → List (List Char) → List (List Char)
  | _, _, [] => []
  | 0, _, _ => []
  | fuel + 1, count, l =>
    joinNL (l.take target) ::
      (if count + 1 ≥ 12 then [] else consolidateLoop target fuel (count + 1) (l.drop target))

/-- `chunk_transcript(transcript_text, max_chunk_tokens, overlap_tokens)`. -/
def chunk_transcript (transcript_text : List Char) (max_chunk_tokens overlap_tokens : Nat) :
    List (List Char) :=
  if estimate_tokens transcript_text ≤ max_chunk_tokens then [transcript_text]
  else
    let chunks := (chunksRaw transcript_text max_chunk_tokens overlap_tokens).map joinNL
    let max_chunks := 12
    if chunks.length > max_chunks then
      let target := chunks.length / max_chunks + (if chunks.length % max_chunks > 0 then 1 else 0)
      consolidateLoop target chunks.length 0 chunks
    else chunks


/-! ## JSON values and `parse_json_response` -/

/-- Python values produced by `json.loads` (and stored in the minutes dict).
Numbers are modelled as integers; JSON floats are outside the model. -/
inductive Json where
  | null : Json
  | bool : Bool → Json
  | num : Int → Json
  | str : List Char → Json
  | arr : List Json → Json
  | obj : List (List Char × Json) → Json

/-- Python truthiness (`if result:`) for such values. -/
def pyTruthy : Json → Bool
  | .null => false
  | .bool b => b
  | .num n => n != 0
  | .str s => !s.isEmpty
  | .arr l => !l.isEmpty
  | .obj l => !l.isEmpty

def isDigit (c : Char) : Bool := '0' ≤ c ∧ c ≤ '9'

def skipWs (l : List Char) : List Char := l.dropWhile isSpace

/-- String body parser for `json.loads` (after the opening quote): common
escapes; raw control characters are rejected as in strict-mode `json.loads`;
`\u` escapes are outside the model. -/
def parseStrBody : List Char → Option (List Char × List Char)
  | [] => none
  | '\\' :: e :: rest =>
    (match e with
     | '"' => some '"'
     | '\\' => some '\\'
     | '/' => some '/'
     | 'n' => some '\n'
     | 't' => some '\t'
     | 'r' => some '\r'
     | 'b' => some '\x08'
     | 'f' => some '\x0c'
     | _ => none).bind fun c =>
      (parseStrBody rest).map fun (s, r) => (c :: s, r)
  | c :: rest =>
    if c = '"' then some ([], rest)
    else if c.toNat < 32 then none
    else (parseStrBody rest).map fun (s, r) => (c :: s, r)

def natOfDigits (ds : List Char) : Nat :=
  ds.foldl (fun a c => a * 10 + (c.toNat - 48)) 0

/-- Number parser for `json.loads`: JSON integers only (a following `.`, `e`
or `E` would make a float, which is outside the model). -/
def parseNum (l : List Char) : Option (Json × List Char) :=
  let (neg, l') := match l with
    | '-' :: r => (true, r)
    | _ => (false, l)
  let ds := l'.takeWhile isDigit
  let rest := l'.dropWhile isDigit
  if ds.isEmpty then none
  else if ds.head? = some '0' && ds.length > 1 then none
  else
    match rest with
    | '.' :: _ => none
    | 'e' :: _ => none
    | 'E' :: _ => none
    | _ =>
      let n : Int := natOfDigits ds
      some (.num (if neg then -n else n), rest)

/-- Insert into an object as Python dict assignment: first occurrence keeps
its position, later duplicates overwrite the value. -/
def insertKV : List (List Char × Json) → List Char → Json → List (List Char × Json)
  | [], k, v => [(k, v)]
  | (k', v') :: rest, k, v =>
    if k' = k then (k', v) :: rest else (k', v') :: insertKV rest k v

mutual

/-- Value parser for `json.loads` (fuel-driven; each recursive call follows at
least one consumed character, so `length + 1` fuel never runs out). -/
def parseVal : Nat → List Char → Option (Json × List Char)
  | 0, _ => none
  | fuel + 1, l =>
    match skipWs l with
    | [] => none
    | 'n' :: 'u' :: 'l' :: 'l' :: rest => some (.null, rest)
    | 't' :: 'r' :: 'u' :: 'e' :: rest => some (.bool true, rest)
    | 'f' :: 'a' :: 'l' :: 's' :: 'e' :: rest => some (.bool false, rest)
    | '"' :: rest => (parseStrBody rest).map fun (s, r) => (.str s, r)
    | '[' :: rest =>
      (match skipWs rest with
       | ']' :: rest' => some (.arr [], rest')
       | _ => (parseElems fuel rest).map fun (es, r) => (.arr es, r))
    | '\x7b' :: rest =>
      (match skipWs rest with
       | '\x7d' :: rest' => some (.obj [], rest')
       | _ => (parseMembers fuel rest []).map fun (kvs, r) => (.obj kvs, r))
    | l' => parseNum l'

/-- `[v, v, ...]` elements (after at least one element is known to follow). -/
def parseElems : Nat → List Char → Option (List Json × List Char)
  | 0, _ => none
  | fuel + 1, l =>
    (parseVal fuel l).bind fun (v, rest) =>
      match skipWs rest with
      | ',' :: rest' => (parseElems fuel rest').map fun (es, r) => (v :: es, r)
      | ']' :: rest' => some ([v], rest')
      | _ => none

/-- `"k": v, ...` object members (after at least one member is known to follow). -/
def parseMembers : Nat → List Char → List (List Char × Json) →
    Option (List (List Char × Json) × List Char)
  | 0, _, _ => none
  | fuel + 1, l, acc =>
    match skipWs l with
    | '"' :: rest =>
      (parseStrBody rest).bind fun (k, rest') =>
        match skipWs rest' with
        | ':' :: rest'' =>
          (parseVal fuel rest'').bind fun (v, rest''') =>
            let acc' := insertKV acc k v
            match skipWs rest''' with
            | ',' :: r => parseMembers fuel r acc'
            | '\x7d' :: r => some (acc', r)
            | _ => none
        | _ => none
    | _ => none

end

/-- `json.loads` on the JSON fragment without floats and `\u` escapes:
parse one value, then require only trailing whitespace. `none` models a
raised `json.JSONDecodeError`. -/
def loads (l : List Char) : Option Json :=
  match parseVal (l.length + 1) l with
  | some (v, rest) => if (skipWs rest).isEmpty then some v else none
  | none => none

/-- The greedy span found by `re.search(r'(\x7b.*\x7d)', content, re.DOTALL)`:
from the first `\x7b` that has a `\x7d` somewhere after it, through the last
`\x7d` of the text. -/
def jsonSpan (l : List Char) : Option (List Char) :=
  let s := ((l.dropWhile (· ≠ '\x7b')).reverse.dropWhile (· ≠ '\x7d')).reverse
  if s.isEmpty then none else some s

/-- `parse_json_response(content)`: parse the greedy brace span if present,
otherwise the raw text; any `json.loads` failure is caught and yields `{}`. -/
def parse_json_response (content : List Char) : Json :=
  match jsonSpan content with
  | some span =>
    match loads span with
    | some j => j
    | none => .obj []
  | none =>
    match loads content with
    | some j => j
    | none => .obj []

/-! ## Completion client (`call_openai_api` under tenacity) -/

/-- Exception classes that matter to this module. `jsonDecodeError` and
`valueError` are the two classes named by `retry_if_exception_type`
(`json.JSONDecodeError` being a `ValueError` subclass); `retryError` is
tenacity's wrapper raised when the retry budget is exhausted; everything
else (auth errors, network errors, `AttributeError`, `TypeError`, ...)
is non-transient. -/
inductive Exn where
  | jsonDecodeError : Exn
  | valueError : Exn
  | attributeError : Exn
  | typeError : Exn
  | retryError : Exn
  | apiError : Exn
deriving DecidableEq

/-- The retry predicate `retry_if_exception_type((json.JSONDecodeError, ValueError))`. -/
def transient : Exn → Bool
  | .jsonDecodeError => true
  | .valueError => true
  | _ => false

/-- The retry loop that `@retry(stop=stop_after_attempt(3), ...)` wraps around
one attempt of `call_openai_api`. `attempts i` is the outcome of the i-th
attempt (0-based). Returns the result together with the number of attempts
made. Backoff sleeps are not part of the model. -/
def retryLoop (attempts : Nat → Except Exn (List Char)) : Nat → Nat →
    Except Exn (List Char) × Nat
  | _, 0 => (.error .retryError, 0)
  | i, fuel + 1 =>
    match attempts i with
    | .ok s => (.ok s, i + 1)
    | .error e =>
      if transient e then
        if i + 2 ≤ 3 then retryLoop attempts (i + 1) fuel
        else (.error .retryError, i + 1)
      else (.error e, i + 1)

/-- `call_openai_api(client, params)` as seen by its caller: the tenacity
retry loop over the underlying attempts, starting at attempt 0 with the
3-attempt budget (`MAX_RETRIES`). -/
def call_openai_api (attempts : Nat → Except Exn (List Char)) :
    Except Exn (List Char) × Nat :=
  retryLoop attempts 0 3

/-! ## Minutes records and the synthesizer -/

/-- `result.get(key, default)` — raises `AttributeError` when the parsed
value is not a dict. -/
def pyGet (j : Json) (k : List Char) (default : Json) : Except Exn Json :=
  match j with
  | .obj kvs => .ok (lookupKV kvs)
  | _ => .error .attributeError
where
  lookupKV : List (List Char × Json) → Json
    | [] => default
    | (k', v) :: rest => if k' = k then v else lookupKV rest

/-- `value.strip()` on a fetched value — raises `AttributeError` when it is
not a string. -/
def pyStripE : Json → Except Exn (List Char)
  | .str s => .ok (pyStrip s)
  | _ => .error .attributeError

/-- Hashability of a parsed JSON value (lists and dicts are unhashable). -/
def hashableJ : Json → Bool
  | .arr _ => false
  | .obj _ => false
  | _ => true

/-- Equality test used while deduplicating: Python `==` on the hashable
values `json.loads` can produce. Python `bool` is an `int` subclass, so a
boolean compares equal to its integer value (`True == 1`, `False == 0`, with
matching hashes); otherwise values of different kinds are unequal and values
of the same kind compare structurally. -/
def scalarEq : Json → Json → Bool
  | .null, .null => true
  | .bool a, .bool b => a == b
  | .bool a, .num b => (if a then (1 : Int) else 0) == b
  | .num a, .bool b => a == (if b then (1 : Int) else 0)
  | .num a, .num b => a == b
  | .str a, .str b => a == b
  | _, _ => false

/-- Pure order-preserving first-occurrence deduplication (what
`list(dict.fromkeys(l))` computes when every element is hashable). -/
def dedupJ (acc : List Json) : List Json → List Json
  | [] => acc
  | x :: rest => dedupJ (if acc.any (scalarEq x) then acc else acc ++ [x]) rest

/-- `list(dict.fromkeys(chunk_actions))`: raises `TypeError` at the first
unhashable element, otherwise deduplicates keeping first occurrences. -/
def dedupKeysE (acc : List Json) : List Json → Except Exn (List Json)
  | [] => .ok acc
  | x :: rest =>
    if hashableJ x then dedupKeysE (if acc.any (scalarEq x) then acc else acc ++ [x]) rest
    else .error .typeError

/-- The six-field minutes dict, in the construction order used by the source. -/
def mkRecord (title duration : List Char) (summary action_points : Json)
    (transcription : List Char) (speakers : List (List Char)) : List (String × Json) :=
  [("title", .str title), ("duration", .str duration), ("summary", summary),
   ("action_points", action_points), ("transcription", .str transcription),
   ("speakers", .arr (speakers.map .str))]

/-- Dict field lookup on a returned record. -/
def getField : List (String × Json) → String → Option Json
  | [], _ => none
  | (k', v) :: rest, k => if k' = k then some v else getField rest k

/-- `create_fallback_meeting_minutes(transcript, speakers, duration_seconds)`.
A `None`/empty speakers argument and an empty list produce the same record. -/
def create_fallback_meeting_minutes (transcript : List Char)
    (speakers : List (List Char)) (duration_seconds : Nat) : List (String × Json) :=
  mkRecord [] (format_duration duration_seconds) (.str []) (.arr []) transcript speakers

/-- Environment configuration read at module import: `OPENAI_MODEL`,
`MODEL_CONTEXT_LIMIT`, `MAX_OUTPUT_TOKENS`. -/
structure Config where
  model : List Char
  contextLimit : Nat
  maxOutputTokens : Nat

/-- `safe_chunk_size = min(MODEL_CONTEXT_LIMIT - MAX_OUTPUT_TOKENS, 3000)`. -/
def safeChunkSize (cfg : Config) : Nat :=
  min (cfg.contextLimit - cfg.maxOutputTokens) 3000

/-- The fixed disclaimer installed when the consolidation summary is empty. -/
def disclaimerText : List Char :=
  ("A summary could not be generated due to API limitations. " ++
   "Please check the transcript for meeting content.").data

/-- The title produced by step 2: the stripped, unquoted response of call 0,
or `"Meeting <timestamp>"` when that call raised (`except` around it). -/
def computeTitle (oracle : Nat → Except Exn (List Char)) (nowTs : List Char) : List Char :=
  match oracle 0 with
  | .ok c => stripQuotes (pyStrip c)
  | .error _ => "Meeting ".data ++ nowTs

/-- One iteration of the per-chunk loop: call, parse, harvest summary and
action points; the surrounding `try/except` makes a failing chunk contribute
nothing. -/
def chunkStep (oracle : Nat → Except Exn (List Char)) (idx : Nat)
    (acc : List (List Char) × List Json) : List (List Char) × List Json :=
  match oracle idx with
  | .error _ => acc
  | .ok content =>
    let result := parse_json_response content
    if pyTruthy result then
      match pyGet result "summary".data (.str []) with
      | .error _ => acc
      | .ok sv =>
        match pyStripE sv with
        | .error _ => acc
        | .ok chunk_summary =>
          match pyGet result "action_points".data .null with
          | .error _ => acc
          | .ok ap =>
            ((if chunk_summary.isEmpty then acc.1 else acc.1 ++ [chunk_summary]),
             match ap with
             | .arr l => acc.2 ++ l
             | _ => acc.2)
    else acc

/-- The per-chunk loop over all chunks, calls numbered from `idx`. -/
def processChunks (oracle : Nat → Except Exn (List Char)) (idx : Nat) :
    List (List Char) → List (List Char) × List Json → List (List Char) × List Json
  | [], acc => acc
  | _ :: rest, acc => processChunks oracle (idx + 1) rest (chunkStep oracle idx acc)

/-- Steps 4d–5 of the two-stage path after at least one chunk summary was
collected: consolidation call, final summary with disclaimer default, final
action points (deduplicated chunk actions if any, else the consolidation's),
and record assembly. Not locally guarded: any error here reaches the
top-level handler. -/
def twoStageFinish (oracle : Nat → Except Exn (List Char)) (idx : Nat)
    (title duration transcript : List Char) (speakers : List (List Char))
    (chunkActions : List Json) : Except Exn (List (String × Json)) :=
  match oracle idx with
  | .error e => .error e
  | .ok final_content =>
    let final_result := parse_json_response final_content
    match pyGet final_result "summary".data (.str []) with
    | .error e => .error e
    | .ok sv =>
      match pyStripE sv with
      | .error e => .error e
      | .ok stripped =>
        match pyGet final_result "action_points".data (.arr []) with
        | .error e => .error e
        | .ok final_actions =>
          let final_summary := if stripped.isEmpty then disclaimerText else stripped
          match (if chunkActions.isEmpty then .ok final_actions
            else (dedupKeysE [] chunkActions).map .arr : Except Exn Json) with
          | .error e => .error e
          | .ok aps =>
            .ok (mkRecord title duration (.str final_summary) aps transcript speakers)

/-- The single-shot path: one call over the whole transcript; note the
summary is *not* stripped here and neither field is type-checked. Errors
reach the top-level handler. -/
def singleShot (oracle : Nat → Except Exn (List Char)) (idx : Nat)
    (title duration transcript : List Char) (speakers : List (List Char)) :
    Except Exn (List (String × Json)) :=
  match oracle idx with
  | .error e => .error e
  | .ok content =>
    let res := parse_json_response content
    match pyGet res "summary".data (.str []) with
    | .error e => .error e
    | .ok summary =>
      match pyGet res "action_points".data (.arr []) with
      | .error e => .error e
      | .ok action_points =>
        .ok (mkRecord title duration summary action_points transcript speakers)

/-- The two-stage branch (step 4): chunk, per-chunk harvest, all-or-nothing
floor, consolidation; a consolidation-stage error falls through to the
top-level handler, i.e. the full fallback record. -/
def twoStagePath (cfg : Config) (oracle : Nat → Except Exn (List Char))
    (title duration transcript : List Char) (speakers : List (List Char))
    (duration_seconds : Nat) : List (String × Json) :=
  let chunks := chunk_transcript transcript (safeChunkSize cfg) 250
  let pa := processChunks oracle 1 chunks ([], [])
  if pa.1.isEmpty then
    create_fallback_meeting_minutes transcript speakers duration_seconds
  else
    match twoStageFinish oracle (1 + chunks.length) title duration transcript
        speakers pa.2 with
    | .ok r => r
    | .error _ => create_fallback_meeting_minutes transcript speakers duration_seconds

/-- The single-shot branch (step 3); an error falls through to the top-level
handler, i.e. the full fallback record. -/
def singleShotPath (oracle : Nat → Except Exn (List Char))
    (title duration transcript : List Char) (speakers : List (List Char))
    (duration_seconds : Nat) : List (String × Json) :=
  match singleShot oracle 1 title duration transcript speakers with
  | .ok r => r
  | .error _ => create_fallback_meeting_minutes transcript speakers duration_seconds

/-- `generate_meeting_minutes(transcript, speakers, duration_seconds)`.

`apiKey` is `os.getenv("OPENAI_API_KEY") or ""`; `nowTs` is the formatted
clock value used by the fallback title; `oracle i` is the outcome of the
i-th `call_openai_api` round-trip of this invocation (call 0 = title, calls
1..n = chunks on the two-stage path, the last call = consolidation, or call
1 = the single-shot request). The request parameter dictionaries (model
name, token-limit parameter via `get_token_param_name`, temperature) only
shape the outbound requests, which the oracle abstracts. The top-level
`try/except Exception` converts any escaped error into the full fallback
record, so the function is total. -/
def generate_meeting_minutes (cfg : Config) (apiKey nowTs : List Char)
    (oracle : Nat → Except Exn (List Char)) (transcript : List Char)
    (speakers : List (List Char)) (duration_seconds : Nat) : List (String × Json) :=
  if transcript.isEmpty then
    create_fallback_meeting_minutes transcript speakers duration_seconds
  else if apiKey.isEmpty then
    create_fallback_meeting_minutes transcript speakers duration_seconds
  else if estimate_tokens transcript > safeChunkSize cfg then
    twoStagePath cfg oracle (computeTitle oracle nowTs) (format_duration duration_seconds)
      transcript speakers duration_seconds
  else
    singleShotPath oracle (computeTitle oracle nowTs) (format_duration duration_seconds)
      transcript speakers duration_seconds

/-! ## Record lemmas -/

theorem getField_mkRecord_title (ti du : List Char) (s a : Json) (tr : List Char)
    (sp : List (List Char)) : getField (mkRecord ti du s a tr sp) "title" = some (.str ti) := rfl

theorem getField_mkRecord_duration (ti du : List Char) (s a : Json) (tr : List Char)
    (sp : List (List Char)) : getField (mkRecord ti du s a tr sp) "duration" = some (.str du) := rfl

theorem getField_mkRecord_summary (ti du : List Char) (s a : Json) (tr : List Char)
    (sp : List (List Char)) : getField (mkRecord ti du s a tr sp) "summary" = some s := rfl

theorem getField_mkRecord_actions (ti du : List Char) (s a : Json) (tr : List Char)
    (sp : List (List Char)) : getField (mkRecord ti du s a tr sp) "action_points" = some a := rfl

theorem getField_mkRecord_transcription (ti du : List Char) (s a : Json) (tr : List Char)
    (sp : List (List Char)) :
    getField (mkRecord ti du s a tr sp) "transcription" = some (.str tr) := rfl

theorem getField_mkRecord_speakers (ti du : List Char) (s a : Json) (tr : List Char)
    (sp : List (List Char)) :
    getField (mkRecord ti du s a tr sp) "speakers" = some (.arr (sp.map .str)) := rfl

theorem mkRecord_keys (ti du : List Char) (s a : Json) (tr : List Char)
    (sp : List (List Char)) :
    (mkRecord ti du s a tr sp).map Prod.fst =
      ["title", "duration", "summary", "action_points", "transcription", "speakers"] := rfl

/-! ## C8: token-limit parameter name selection -/

/-- **C8** (confirmed). `get_token_param_name` returns
`"max_completion_tokens"` exactly when the model identifier contains
`"gpt-4o"`, `"gpt-4.5"` or `"o3"` as a substring, and `"max_tokens"`
otherwise. -/
theorem claim_C8 (model : List Char) :
    ((containsSub "gpt-4o".data model || containsSub "gpt-4.5".data model
        || containsSub "o3".data model) = true →
      get_token_param_name model = "max_completion_tokens".data)
    ∧ ((containsSub "gpt-4o".data model || containsSub "gpt-4.5".data model
        || containsSub "o3".data model) = false →
      get_token_param_name model = "max_tokens".data) := by
  unfold get_token_param_name
  cases h1 : containsSub "o3".data model <;>
    cases h2 : containsSub "gpt-4o".data model <;>
      cases h3 : containsSub "gpt-4.5".data model <;>
        simp [h1, h2, h3]

/-- Witness for C8 at the model names used by the spec and the repo's tests. -/
theorem claim_C8_witness :
    get_token_param_name "gpt-3.5-turbo".data = "max_tokens".data
    ∧ get_token_param_name "gpt-4o".data = "max_completion_tokens".data
    ∧ get_token_param_name "o3-mini".data = "max_completion_tokens".data :=
  ⟨(claim_C8 "gpt-3.5-turbo".data).2 (by decide),
   (claim_C8 "gpt-4o".data).1 (by decide),
   (claim_C8 "o3-mini".data).1 (by decide)⟩

/-! ## C3: the 12-chunk cap -/

theorem consolidateLoop_length_le (target : Nat) :
    ∀ (fuel count : Nat) (l : List (List Char)), count < 12 →
      (consolidateLoop target fuel count l).length ≤ 12 - count := by
  intro fuel
  induction fuel with
  | zero => intro count l _; cases l <;> simp [consolidateLoop]
  | succ n ih =>
    intro count l hc
    cases l with
    | nil => simp [consolidateLoop]
    | cons x xs =>
      simp only [consolidateLoop]
      split
      · simpa using by omega
      · have hc' : count + 1 < 12 := by omega
        have := ih (count + 1) ((x :: xs).drop target) hc'
        simp only [List.length_cons]
        omega

/-- **C3** (confirmed). For every transcript and positive token budgets,
`chunk_transcript` returns at most 12 chunks. -/
theorem claim_C3 (transcript_text : List Char) (max_chunk_tokens overlap_tokens : Nat)
    (hm : 0 < max_chunk_tokens) (ho : 0 < overlap_tokens) :
    (chunk_transcript transcript_text max_chunk_tokens overlap_tokens).length ≤ 12 := by
  unfold chunk_transcript
  split
  · simp
  · dsimp only
    split
    · exact le_trans (consolidateLoop_length_le _ _ 0 _ (by omega)) (by omega)
    · omega

/-- Witness for C3 at a transcript that produces more than 12 raw chunks. -/
theorem claim_C3_witness :
    0 < 2 ∧ 0 < 1 ∧ (chunk_transcript
      ("a p. q.\nb p. q.\nc p. q.\nd p. q.\ne p. q.\nf p. q.\ng p. q.\nh p. q.\n" ++
       "i p. q.\nj p. q.\nk p. q.\nl p. q.\nm p. q.\nn p. q.\no p. q.\np p. q.").data
      2 1).length ≤ 12 :=
  ⟨by decide, by decide, claim_C3 _ 2 1 (by decide) (by decide)⟩

/-! ## C7: `parse_json_response` -/

/-- The parser described by the spec's words: try the greedy brace span; *if
that parse fails, attempt to parse the raw text directly*; on any failure
return the empty mapping. (The code, by contrast, only tries the raw text
when no span was found at all.) -/
def parse_json_response_spec (content : List Char) : Json :=
  match jsonSpan content with
  | some span =>
    match loads span with
    | some j => j
    | none =>
      match loads content with
      | some j => j
      | none => .obj []
  | none =>
    match loads content with
    | some j => j
    | none => .obj []

/-- **C7 counterexample.** On `[1, "\x7b", 2, "\x7d"]` the greedy span
`\x7b", 2, "\x7d` fails to parse, and the raw text parses as a JSON array —
yet the code returns `\x7b\x7d` without ever attempting the raw text, while
the claimed fallback sequence would return the array. -/
theorem claim_C7_counterexample :
    parse_json_response "[1, \"\x7b\", 2, \"\x7d\"]".data = Json.obj []
    ∧ parse_json_response_spec "[1, \"\x7b\", 2, \"\x7d\"]".data =
        Json.arr [Json.num 1, Json.str ['\x7b'], Json.num 2, Json.str ['\x7d']]
    ∧ Json.obj [] ≠ Json.arr [Json.num 1, Json.str ['\x7b'], Json.num 2, Json.str ['\x7d']] :=
  ⟨rfl, rfl, fun h => Json.noConfusion h⟩

/-- **C7 amended** (the raw-text attempt happens only when no brace span is
found; a failed span parse returns the empty mapping directly; the function
is total, i.e. never raises). -/
theorem claim_C7_amended (content : List Char) :
    (∀ s, jsonSpan content = some s →
      parse_json_response content = (loads s).getD (Json.obj []))
    ∧ (jsonSpan content = none →
      parse_json_response content = (loads content).getD (Json.obj [])) := by
  constructor
  · intro s hs
    unfold parse_json_response
    rw [hs]
    cases h2 : loads s <;> simp [h2]
  · intro hn
    unfold parse_json_response
    rw [hn]
    cases h2 : loads content <;> simp [h2]

/-- Witness for C7-amended: one input with a failing span (empty mapping
without a raw-text retry), one with no span at all. -/
theorem claim_C7_amended_witness :
    parse_json_response "x \x7b bad \x7d y".data =
      (loads "\x7b bad \x7d".data).getD (Json.obj [])
    ∧ parse_json_response "no braces".data =
      (loads "no braces".data).getD (Json.obj []) :=
  ⟨(claim_C7_amended "x \x7b bad \x7d y".data).1 "\x7b bad \x7d".data rfl,
   (claim_C7_amended "no braces".data).2 rfl⟩

/-! ## C6: retry policy of the completion client -/

/-- **C6** (confirmed). `call_openai_api` makes at most 3 attempts; every
attempt that was followed by another one raised a transient error
(`json.JSONDecodeError` or `ValueError`); and the first non-transient error,
reached after only transient failures, is propagated as-is immediately after
the attempt that raised it. -/
theorem claim_C6 (attempts : Nat → Except Exn (List Char)) :
    (call_openai_api attempts).2 ≤ 3
    ∧ (∀ i, i + 1 < (call_openai_api attempts).2 →
        ∃ e, attempts i = .error e ∧ transient e = true)
    ∧ (∀ i e, i < 3 →
        (∀ j, j < i → ∃ e', attempts j = .error e' ∧ transient e' = true) →
        attempts i = .error e → transient e = false →
        call_openai_api attempts = (.error e, i + 1)) := by
  have contra1 : ∀ {e : Exn}, attempts 1 = .error e → transient e = false →
      (∃ e', attempts 1 = .error e' ∧ transient e' = true) → False := by
    intro e he hte ⟨e', he', hte'⟩
    rw [he] at he'
    injection he' with h'
    subst h'
    rw [hte] at hte'
    exact Bool.noConfusion hte'
  rcases h0 : attempts 0 with e0 | s0
  case ok =>
    have hv : call_openai_api attempts = (.ok s0, 1) := by
      simp [call_openai_api, retryLoop, h0]
    refine ⟨by simp [hv], ?_, ?_⟩
    · intro i hi
      rw [hv] at hi
      exact absurd hi (by omega)
    · intro i e hi3 hprev hie hte
      interval_cases i
      · rw [h0] at hie; exact absurd hie (by simp)
      · obtain ⟨e', he', _⟩ := hprev 0 (by omega)
        rw [h0] at he'; exact absurd he' (by simp)
      · obtain ⟨e', he', _⟩ := hprev 0 (by omega)
        rw [h0] at he'; exact absurd he' (by simp)
  case error =>
    cases ht0 : transient e0 with
    | false =>
      have hv : call_openai_api attempts = (.error e0, 1) := by
        simp [call_openai_api, retryLoop, h0, ht0]
      refine ⟨by simp [hv], ?_, ?_⟩
      · intro i hi
        rw [hv] at hi
        exact absurd hi (by omega)
      · intro i e hi3 hprev hie hte
        interval_cases i
        · rw [h0] at hie; injection hie with h'; subst h'
          exact hv
        · obtain ⟨e', he', ht'⟩ := hprev 0 (by omega)
          rw [h0] at he'; injection he' with h'; subst h'
          rw [ht0] at ht'; exact Bool.noConfusion ht'
        · obtain ⟨e', he', ht'⟩ := hprev 0 (by omega)
          rw [h0] at he'; injection he' with h'; subst h'
          rw [ht0] at ht'; exact Bool.noConfusion ht'
    | true =>
      rcases h1 : attempts 1 with e1 | s1
      case ok =>
        have hv : call_openai_api attempts = (.ok s1, 2) := by
          simp [call_openai_api, retryLoop, h0, ht0, h1]
        refine ⟨by simp [hv], ?_, ?_⟩
        · intro i hi
          rw [hv] at hi
          have : i = 0 := by omega
          subst this
          exact ⟨e0, h0, ht0⟩
        · intro i e hi3 hprev hie hte
          interval_cases i
          · rw [h0] at hie; injection hie with h'; subst h'
            rw [ht0] at hte; exact Bool.noConfusion hte
          · rw [h1] at hie; exact absurd hie (by simp)
          · obtain ⟨e', he', _⟩ := hprev 1 (by omega)
            rw [h1] at he'; exact absurd he' (by simp)
      case error =>
        cases ht1 : transient e1 with
        | false =>
          have hv : call_openai_api attempts = (.error e1, 2) := by
            simp [call_openai_api, retryLoop, h0, ht0, h1, ht1]
          refine ⟨by simp [hv], ?_, ?_⟩
          · intro i hi
            rw [hv] at hi
            have : i = 0 := by omega
            subst this
            exact ⟨e0, h0, ht0⟩
          · intro i e hi3 hprev hie hte
            interval_cases i
            · rw [h0] at hie; injection hie with h'; subst h'
              rw [ht0] at hte; exact Bool.noConfusion hte
            · rw [h1] at hie; injection hie with h'; subst h'
              exact hv
            · exact (contra1 h1 ht1 (hprev 1 (by omega))).elim
        | true =>
          rcases h2 : attempts 2 with e2 | s2
          case ok =>
            have hv : call_openai_api attempts = (.ok s2, 3) := by
              simp [call_openai_api, retryLoop, h0, ht0, h1, ht1, h2]
            refine ⟨by simp [hv], ?_, ?_⟩
            · intro i hi
              rw [hv] at hi
              rcases (by omega : i = 0 ∨ i = 1) with rfl | rfl
              · exact ⟨e0, h0, ht0⟩
              · exact ⟨e1, h1, ht1⟩
            · intro i e hi3 hprev hie hte
              interval_cases i
              · rw [h0] at hie; injection hie with h'; subst h'
                rw [ht0] at hte; exact Bool.noConfusion hte
              · rw [h1] at hie; injection hie with h'; subst h'
                rw [ht1] at hte; exact Bool.noConfusion hte
              · rw [h2] at hie; exact absurd hie (by simp)
          case error =>
            cases ht2 : transient e2 with
            | false =>
              have hv : call_openai_api attempts = (.error e2, 3) := by
                simp [call_openai_api, retryLoop, h0, ht0, h1, ht1, h2, ht2]
              refine ⟨by simp [hv], ?_, ?_⟩
              · intro i hi
                rw [hv] at hi
                rcases (by omega : i = 0 ∨ i = 1) with rfl | rfl
                · exact ⟨e0, h0, ht0⟩
                · exact ⟨e1, h1, ht1⟩
              · intro i e hi3 hprev hie hte
                interval_cases i
                · rw [h0] at hie; injection hie with h'; subst h'
                  rw [ht0] at hte; exact Bool.noConfusion hte
                · rw [h1] at hie; injection hie with h'; subst h'
                  rw [ht1] at hte; exact Bool.noConfusion hte
                · rw [h2] at hie; injection hie with h'; subst h'
                  exact hv
            | true =>
              have hv : call_openai_api attempts = (.error .retryError, 3) := by
                simp [call_openai_api, retryLoop, h0, ht0, h1, ht1, h2, ht2]
              refine ⟨by simp [hv], ?_, ?_⟩
              · intro i hi
                rw [hv] at hi
                rcases (by omega : i = 0 ∨ i = 1) with rfl | rfl
                · exact ⟨e0, h0, ht0⟩
                · exact ⟨e1, h1, ht1⟩
              · intro i e hi3 hprev hie hte
                interval_cases i
                · rw [h0] at hie; injection hie with h'; subst h'
                  rw [ht0] at hte; exact Bool.noConfusion hte
                · rw [h1] at hie; injection hie with h'; subst h'
                  rw [ht1] at hte; exact Bool.noConfusion hte
                · rw [h2] at hie; injection hie with h'; subst h'
                  rw [ht2] at hte; exact Bool.noConfusion hte

/-- Witness for C6: a non-transient authentication-style error on the first
attempt propagates at once (1 attempt), while an always-transient failure
consumes the whole 3-attempt budget. -/
theorem claim_C6_witness :
    call_openai_api (fun _ => .error .apiError) = (.error .apiError, 1)
    ∧ (call_openai_api (fun _ => .error .valueError)).2 ≤ 3 :=
  ⟨(claim_C6 (fun _ => .error .apiError)).2.2 0 .apiError (by omega)
      (fun j hj => absurd hj (by omega)) rfl rfl,
   (claim_C6 (fun _ => .error .valueError)).1⟩

/-! ## Synthesizer path lemmas -/

theorem generate_eq_fallback_of_empty (cfg : Config) (key ts : List Char)
    (oracle : Nat → Except Exn (List Char)) (sp : List (List Char)) (d : Nat) :
    generate_meeting_minutes cfg key ts oracle [] sp d =
      create_fallback_meeting_minutes [] sp d := by
  simp [generate_meeting_minutes]

theorem generate_eq_fallback_of_nokey (cfg : Config) (ts : List Char)
    (oracle : Nat → Except Exn (List Char)) (t : List Char) (sp : List (List Char))
    (d : Nat) (ht : t ≠ []) :
    generate_meeting_minutes cfg [] ts oracle t sp d =
      create_fallback_meeting_minutes t sp d := by
  unfold generate_meeting_minutes
  rw [if_neg (by simpa [List.isEmpty_iff] using ht), if_pos (by simp [List.isEmpty_iff])]

theorem generate_eq_twoStagePath (cfg : Config) (key ts : List Char)
    (oracle : Nat → Except Exn (List Char)) (t : List Char) (sp : List (List Char))
    (d : Nat) (ht : t ≠ []) (hk : key ≠ [])
    (hbig : estimate_tokens t > safeChunkSize cfg) :
    generate_meeting_minutes cfg key ts oracle t sp d =
      twoStagePath cfg oracle (computeTitle oracle ts) (format_duration d) t sp d := by
  unfold generate_meeting_minutes
  rw [if_neg (by simpa [List.isEmpty_iff] using ht),
    if_neg (by simpa [List.isEmpty_iff] using hk), if_pos hbig]

theorem generate_eq_singleShotPath (cfg : Config) (key ts : List Char)
    (oracle : Nat → Except Exn (List Char)) (t : List Char) (sp : List (List Char))
    (d : Nat) (ht : t ≠ []) (hk : key ≠ [])
    (hsmall : ¬estimate_tokens t > safeChunkSize cfg) :
    generate_meeting_minutes cfg key ts oracle t sp d =
      singleShotPath oracle (computeTitle oracle ts) (format_duration d) t sp d := by
  unfold generate_meeting_minutes
  rw [if_neg (by simpa [List.isEmpty_iff] using ht),
    if_neg (by simpa [List.isEmpty_iff] using hk), if_neg hsmall]

theorem twoStagePath_eq_fallback_of_noSummary (cfg : Config)
    (oracle : Nat → Except Exn (List Char)) (ti du t : List Char)
    (sp : List (List Char)) (d : Nat)
    (hnone : (processChunks oracle 1 (chunk_transcript t (safeChunkSize cfg) 250) ([], [])).1 = []) :
    twoStagePath cfg oracle ti du t sp d = create_fallback_meeting_minutes t sp d := by
  unfold twoStagePath
  rw [if_pos (by simpa [List.isEmpty_iff] using hnone)]

theorem twoStagePath_eq_of_finish_ok (cfg : Config)
    (oracle : Nat → Except Exn (List Char)) (ti du t : List Char)
    (sp : List (List Char)) (d : Nat) (r : List (String × Json))
    (hsome : (processChunks oracle 1 (chunk_transcript t (safeChunkSize cfg) 250) ([], [])).1 ≠ [])
    (hok : twoStageFinish oracle (1 + (chunk_transcript t (safeChunkSize cfg) 250).length)
      ti du t sp
      (processChunks oracle 1 (chunk_transcript t (safeChunkSize cfg) 250) ([], [])).2 = .ok r) :
    twoStagePath cfg oracle ti du t sp d = r := by
  unfold twoStagePath
  rw [if_neg (by simpa [List.isEmpty_iff] using hsome), hok]

theorem twoStagePath_eq_fallback_of_finish_error (cfg : Config)
    (oracle : Nat → Except Exn (List Char)) (ti du t : List Char)
    (sp : List (List Char)) (d : Nat) (e : Exn)
    (herr : twoStageFinish oracle (1 + (chunk_transcript t (safeChunkSize cfg) 250).length)
      ti du t sp
      (processChunks oracle 1 (chunk_transcript t (safeChunkSize cfg) 250) ([], [])).2 = .error e) :
    twoStagePath cfg oracle ti du t sp d = create_fallback_meeting_minutes t sp d := by
  unfold twoStagePath
  by_cases hn : (processChunks oracle 1 (chunk_transcript t (safeChunkSize cfg) 250) ([], [])).1 = []
  · rw [if_pos (by simpa [List.isEmpty_iff] using hn)]
  · rw [if_neg (by simpa [List.isEmpty_iff] using hn), herr]

theorem singleShotPath_eq_of_ok (oracle : Nat → Except Exn (List Char))
    (ti du t : List Char) (sp : List (List Char)) (d : Nat) (r : List (String × Json))
    (hok : singleShot oracle 1 ti du t sp = .ok r) :
    singleShotPath oracle ti du t sp d = r := by
  unfold singleShotPath
  rw [hok]

theorem singleShotPath_eq_fallback_of_error (oracle : Nat → Except Exn (List Char))
    (ti du t : List Char) (sp : List (List Char)) (d : Nat) (e : Exn)
    (herr : singleShot oracle 1 ti du t sp = .error e) :
    singleShotPath oracle ti du t sp d = create_fallback_meeting_minutes t sp d := by
  unfold singleShotPath
  rw [herr]

/-- A successful single-shot call produces exactly the six-field record with
the given title, duration, transcription and speakers (summary and action
points being whatever the parsed response supplied). -/
theorem singleShot_ok_shape (oracle : Nat → Except Exn (List Char)) (i : Nat)
    (ti du tr : List Char) (sp : List (List Char)) (r : List (String × Json))
    (h : singleShot oracle i ti du tr sp = .ok r) :
    ∃ s a, r = mkRecord ti du s a tr sp := by
  unfold singleShot at h
  split at h
  · exact absurd h (by simp)
  · dsimp only at h
    split at h
    · exact absurd h (by simp)
    · split at h
      · exact absurd h (by simp)
      · injection h with h
        exact ⟨_, _, h.symm⟩

/-- A successful consolidation stage produces the six-field record with the
given title, duration, transcription and speakers, and a *string* summary. -/
theorem twoStageFinish_ok_shape (oracle : Nat → Except Exn (List Char)) (i : Nat)
    (ti du tr : List Char) (sp : List (List Char)) (acts : List Json)
    (r : List (String × Json))
    (h : twoStageFinish oracle i ti du tr sp acts = .ok r) :
    ∃ s a, r = mkRecord ti du (.str s) a tr sp := by
  unfold twoStageFinish at h
  split at h
  · exact absurd h (by simp)
  · dsimp only at h
    split at h
    · exact absurd h (by simp)
    · split at h
      · exact absurd h (by simp)
      · split at h
        · exact absurd h (by simp)
        · split at h
          · exact absurd h (by simp)
          · injection h with h
            exact ⟨_, _, h.symm⟩

/-- When every completion call raises, the per-chunk loop collects nothing. -/
theorem processChunks_allError (oracle : Nat → Except Exn (List Char))
    (hfail : ∀ i, ∃ e, oracle i = .error e) :
    ∀ (chunks : List (List Char)) (idx : Nat) (acc : List (List Char) × List Json),
      processChunks oracle idx chunks acc = acc := by
  intro chunks
  induction chunks with
  | nil => intro idx acc; rfl
  | cons c rest ih =>
    intro idx acc
    obtain ⟨e, he⟩ := hfail idx
    have hs : chunkStep oracle idx acc = acc := by
      unfold chunkStep
      rw [he]
    simp [processChunks, hs, ih]

/-- `dict.fromkeys` that returned without raising computed the pure
order-preserving first-occurrence deduplication. -/
theorem dedupKeysE_ok : ∀ (l acc : List Json) (res : List Json),
    dedupKeysE acc l = .ok res → res = dedupJ acc l := by
  intro l
  induction l with
  | nil =>
    intro acc res h
    unfold dedupKeysE at h
    injection h with h
    rw [h]
    rfl
  | cons x rest ih =>
    intro acc res h
    unfold dedupKeysE at h
    split at h
    · exact ih _ _ h
    · exact absurd h (by simp)

/-! ## C1: completeness of the returned record -/

def isList : Json → Bool
  | .arr _ => true
  | _ => false

/-- Every exit of the synthesizer returns the six-field record with this
duration, transcription and speakers. -/
theorem generate_shape (cfg : Config) (key ts : List Char)
    (oracle : Nat → Except Exn (List Char)) (t : List Char) (sp : List (List Char))
    (d : Nat) :
    ∃ ti s a, generate_meeting_minutes cfg key ts oracle t sp d =
      mkRecord ti (format_duration d) s a t sp := by
  by_cases ht : t = []
  · subst ht
    rw [generate_eq_fallback_of_empty]
    exact ⟨[], .str [], .arr [], rfl⟩
  by_cases hk : key = []
  · subst hk
    rw [generate_eq_fallback_of_nokey cfg ts oracle t sp d ht]
    exact ⟨[], .str [], .arr [], rfl⟩
  by_cases hbig : estimate_tokens t > safeChunkSize cfg
  · rw [generate_eq_twoStagePath cfg key ts oracle t sp d ht hk hbig]
    unfold twoStagePath
    dsimp only
    split
    · exact ⟨[], .str [], .arr [], rfl⟩
    · rcases hfin : twoStageFinish oracle
        (1 + (chunk_transcript t (safeChunkSize cfg) 250).length)
        (computeTitle oracle ts) (format_duration d) t sp
        (processChunks oracle 1 (chunk_transcript t (safeChunkSize cfg) 250) ([], [])).2
        with e | r
      · exact ⟨[], .str [], .arr [], rfl⟩
      · obtain ⟨s, a, hr⟩ := twoStageFinish_ok_shape oracle _ _ _ _ _ _ _ hfin
        exact ⟨computeTitle oracle ts, .str s, a, hr⟩
  · rw [generate_eq_singleShotPath cfg key ts oracle t sp d ht hk hbig]
    unfold singleShotPath
    rcases hsy : singleShot oracle 1 (computeTitle oracle ts) (format_duration d) t sp
      with e | r
    · exact ⟨[], .str [], .arr [], rfl⟩
    · obtain ⟨s, a, hr⟩ := singleShot_ok_shape oracle _ _ _ _ _ _ hsy
      exact ⟨computeTitle oracle ts, s, a, hr⟩

/-- **C1 amended.** Every invocation — including under total failure of all
external calls — returns a record with exactly the six keys; `title`,
`duration`, `transcription` are always strings, `speakers` is always a list,
and `duration`/`transcription`/`speakers` carry the input data. The claim's
typing of `summary` (string) and `action_points` (list) does *not* hold on
the success paths, where those fields carry whatever JSON value the parsed
completion supplied (see the counterexample). -/
theorem claim_C1_amended (cfg : Config) (key ts : List Char)
    (oracle : Nat → Except Exn (List Char)) (t : List Char) (sp : List (List Char))
    (d : Nat) :
    (generate_meeting_minutes cfg key ts oracle t sp d).map Prod.fst =
      ["title", "duration", "summary", "action_points", "transcription", "speakers"]
    ∧ (∃ ti, getField (generate_meeting_minutes cfg key ts oracle t sp d) "title" =
        some (.str ti))
    ∧ getField (generate_meeting_minutes cfg key ts oracle t sp d) "duration" =
        some (.str (format_duration d))
    ∧ (∃ v, getField (generate_meeting_minutes cfg key ts oracle t sp d) "summary" = some v)
    ∧ (∃ v, getField (generate_meeting_minutes cfg key ts oracle t sp d) "action_points" =
        some v)
    ∧ getField (generate_meeting_minutes cfg key ts oracle t sp d) "transcription" =
        some (.str t)
    ∧ getField (generate_meeting_minutes cfg key ts oracle t sp d) "speakers" =
        some (.arr (sp.map .str)) := by
  obtain ⟨ti, s, a, h⟩ := generate_shape cfg key ts oracle t sp d
  rw [h]
  exact ⟨mkRecord_keys ti _ s a t sp, ⟨ti, rfl⟩, rfl, ⟨s, rfl⟩, ⟨a, rfl⟩, rfl, rfl⟩

/-- **C1 counterexample.** On the single-shot path, a completion answer whose
`action_points` is a JSON string is stored verbatim: the returned record's
`action_points` field is the string `"notalist"`, not a list, refuting the
claimed `action_points (list)` typing. -/
theorem claim_C1_counterexample :
    getField (generate_meeting_minutes ⟨"m".data, 12, 4⟩ "k".data "TS".data
      (fun i => ([.error Exn.valueError,
        .ok "\x7b\"summary\": \"s\", \"action_points\": \"notalist\"\x7d".data] :
        List (Except Exn (List Char))).getD i (.error .apiError))
      "hello there people".data ["S1".data] 3600) "action_points"
      = some (Json.str "notalist".data)
    ∧ isList (Json.str "notalist".data) = false :=
  ⟨rfl, rfl⟩

/-! ## C4 and C5: total failure and the all-or-nothing floor -/

/-- The large-transcript input used by concrete two-stage scenarios: with the
test configuration (context limit 12, max output 4, hence
`safe_chunk_size = 8`) it takes the two-stage path. -/
def bigTranscript : List Char :=
  ("This is a test sentence. More words follow here.\n" ++
   "Second paragraph of the transcript goes here. It also has sentences!\n" ++
   "Third paragraph closes it out. Done now.").data

/-- **C4 amended.** If the transcript takes the two-stage path and every
completion call raises, `generate_meeting_minutes` returns the complete full
fallback record, whose `summary` is the *empty string* — not the disclaimer
string, which is installed only when the consolidation call itself succeeds
with an empty summary. -/
theorem claim_C4_amended (cfg : Config) (key ts : List Char)
    (oracle : Nat → Except Exn (List Char)) (t : List Char) (sp : List (List Char))
    (d : Nat) (ht : t ≠ []) (hk : key ≠ [])
    (hbig : estimate_tokens t > safeChunkSize cfg)
    (hfail : ∀ i, ∃ e, oracle i = .error e) :
    generate_meeting_minutes cfg key ts oracle t sp d =
      create_fallback_meeting_minutes t sp d
    ∧ getField (generate_meeting_minutes cfg key ts oracle t sp d) "summary" =
        some (.str []) := by
  have h1 : generate_meeting_minutes cfg key ts oracle t sp d =
      create_fallback_meeting_minutes t sp d := by
    rw [generate_eq_twoStagePath cfg key ts oracle t sp d ht hk hbig]
    exact twoStagePath_eq_fallback_of_noSummary cfg oracle _ _ t sp d
      (by rw [processChunks_allError oracle hfail])
  exact ⟨h1, by rw [h1]; rfl⟩

/-- Witness for C4-amended: the concrete all-raising scenario (the repo's own
`test_large_transcript_api_error` scenario, scaled down). -/
theorem claim_C4_amended_witness :
    generate_meeting_minutes ⟨"m".data, 12, 4⟩ "k".data "TS".data
      (fun _ => .error .valueError) bigTranscript ["S1".data] 3600 =
      create_fallback_meeting_minutes bigTranscript ["S1".data] 3600 :=
  (claim_C4_amended ⟨"m".data, 12, 4⟩ "k".data "TS".data (fun _ => .error .valueError)
    bigTranscript ["S1".data] 3600 (by decide) (by decide) (by decide)
    (fun _ => ⟨.valueError, rfl⟩)).1

/-- **C4 counterexample.** In the claimed situation (two-stage path, every
call raising a transient error) the returned summary is `""`, which differs
from the fixed disclaimer string the claim promises. -/
theorem claim_C4_counterexample :
    estimate_tokens bigTranscript > safeChunkSize ⟨"m".data, 12, 4⟩
    ∧ getField (generate_meeting_minutes ⟨"m".data, 12, 4⟩ "k".data "TS".data
        (fun _ => .error .valueError) bigTranscript ["S1".data] 3600) "summary" =
        some (.str [])
    ∧ Json.str [] ≠ Json.str disclaimerText := by
  refine ⟨by decide, rfl, ?_⟩
  intro h
  injection h with h'
  exact absurd h' (by decide)

/-- **C5** (confirmed). On the two-stage path, if no chunk produced a
non-empty summary the whole synthesis degrades to the full fallback record:
empty summary, empty action points, the verbatim transcript and the
formatted duration. -/
theorem claim_C5 (cfg : Config) (key ts : List Char)
    (oracle : Nat → Except Exn (List Char)) (t : List Char) (sp : List (List Char))
    (d : Nat) (ht : t ≠ []) (hk : key ≠ [])
    (hbig : estimate_tokens t > safeChunkSize cfg)
    (hnone : (processChunks oracle 1 (chunk_transcript t (safeChunkSize cfg) 250)
      ([], [])).1 = []) :
    generate_meeting_minutes cfg key ts oracle t sp d =
      create_fallback_meeting_minutes t sp d
    ∧ getField (create_fallback_meeting_minutes t sp d) "summary" = some (.str [])
    ∧ getField (create_fallback_meeting_minutes t sp d) "action_points" = some (.arr [])
    ∧ getField (create_fallback_meeting_minutes t sp d) "transcription" = some (.str t)
    ∧ getField (create_fallback_meeting_minutes t sp d) "duration" =
        some (.str (format_duration d)) := by
  refine ⟨?_, rfl, rfl, rfl, rfl⟩
  rw [generate_eq_twoStagePath cfg key ts oracle t sp d ht hk hbig]
  exact twoStagePath_eq_fallback_of_noSummary cfg oracle _ _ t sp d hnone

/-- Witness for C5 at the concrete scenario of the spec (duration 3600 →
`"01:00:00"`), with a stub whose calls all fail. -/
theorem claim_C5_witness :
    generate_meeting_minutes ⟨"m".data, 12, 4⟩ "k".data "TS".data
      (fun _ => .error .apiError) bigTranscript ["S1".data] 3600 =
      create_fallback_meeting_minutes bigTranscript ["S1".data] 3600 :=
  (claim_C5 ⟨"m".data, 12, 4⟩ "k".data "TS".data (fun _ => .error .apiError)
    bigTranscript ["S1".data] 3600 (by decide) (by decide) (by decide) rfl).1

/-! ## C9: merge semantics of the final action points -/

/-- If the consolidation stage succeeded and chunk action points were
collected, the record's `action_points` is their order-preserving
first-occurrence deduplication. -/
theorem twoStageFinish_actions_dedup (oracle : Nat → Except Exn (List Char)) (i : Nat)
    (ti du tr : List Char) (sp : List (List Char)) (acts : List Json)
    (r : List (String × Json)) (h : twoStageFinish oracle i ti du tr sp acts = .ok r)
    (hne : acts ≠ []) :
    getField r "action_points" = some (.arr (dedupJ [] acts)) := by
  unfold twoStageFinish at h
  rcases ho : oracle i with e | c
  · rw [ho] at h; exact absurd h (by simp)
  · rw [ho] at h
    dsimp only at h
    rcases hg1 : pyGet (parse_json_response c) "summary".data (.str []) with e | sv
    · rw [hg1] at h; exact absurd h (by simp)
    · rw [hg1] at h
      dsimp only at h
      rcases hg2 : pyStripE sv with e | stripped
      · rw [hg2] at h; exact absurd h (by simp)
      · rw [hg2] at h
        dsimp only at h
        rcases hg3 : pyGet (parse_json_response c) "action_points".data (.arr [])
          with e | fa
        · rw [hg3] at h; exact absurd h (by simp)
        · rw [hg3] at h
          dsimp only at h
          rw [if_neg (by simpa [List.isEmpty_iff] using hne)] at h
          rcases hd : dedupKeysE [] acts with e | l
          · rw [hd] at h
            exact absurd h (by simp [Except.map])
          · rw [hd] at h
            simp only [Except.map] at h
            injection h with h
            rw [← h, dedupKeysE_ok acts [] l hd]
            rfl

/-- If the consolidation stage succeeded and *no* chunk action points were
collected, the record's `action_points` is the consolidation result's
`action_points` value. -/
theorem twoStageFinish_actions_final (oracle : Nat → Except Exn (List Char)) (i : Nat)
    (ti du tr : List Char) (sp : List (List Char)) (acts : List Json)
    (r : List (String × Json)) (h : twoStageFinish oracle i ti du tr sp acts = .ok r)
    (he : acts = []) :
    ∀ c, oracle i = .ok c →
      ∃ fa, pyGet (parse_json_response c) "action_points".data (.arr []) = .ok fa
        ∧ getField r "action_points" = some fa := by
  intro c hc
  unfold twoStageFinish at h
  rw [hc] at h
  dsimp only at h
  rcases hg1 : pyGet (parse_json_response c) "summary".data (.str []) with e | sv
  · rw [hg1] at h; exact absurd h (by simp)
  · rw [hg1] at h
    dsimp only at h
    rcases hg2 : pyStripE sv with e | stripped
    · rw [hg2] at h; exact absurd h (by simp)
    · rw [hg2] at h
      dsimp only at h
      rcases hg3 : pyGet (parse_json_response c) "action_points".data (.arr [])
        with e | fa
      · rw [hg3] at h; exact absurd h (by simp)
      · rw [hg3] at h
        dsimp only at h
        rw [if_pos (by simpa [List.isEmpty_iff] using he)] at h
        injection h with h
        exact ⟨fa, rfl, by rw [← h]; rfl⟩

/-- **C9 amended.** On the two-stage path with at least one chunk summary,
*provided the consolidation stage returns without raising* (in particular
every collected action point is hashable — lists or dicts among them raise
`TypeError` inside `dict.fromkeys` and degrade the call to the full fallback
record, see the counterexample): if any per-chunk action points were
collected, the returned `action_points` is their order-preserving
first-occurrence-wins deduplication in chunk order; otherwise it is the
consolidation result's `action_points`. -/
theorem claim_C9_amended (cfg : Config) (key ts : List Char)
    (oracle : Nat → Except Exn (List Char)) (t : List Char) (sp : List (List Char))
    (d : Nat) (ht : t ≠ []) (hk : key ≠ [])
    (hbig : estimate_tokens t > safeChunkSize cfg)
    (hsome : (processChunks oracle 1 (chunk_transcript t (safeChunkSize cfg) 250)
      ([], [])).1 ≠ [])
    (r : List (String × Json))
    (hok : twoStageFinish oracle (1 + (chunk_transcript t (safeChunkSize cfg) 250).length)
      (computeTitle oracle ts) (format_duration d) t sp
      (processChunks oracle 1 (chunk_transcript t (safeChunkSize cfg) 250) ([], [])).2
      = .ok r) :
    generate_meeting_minutes cfg key ts oracle t sp d = r
    ∧ ((processChunks oracle 1 (chunk_transcript t (safeChunkSize cfg) 250) ([], [])).2 ≠ [] →
        getField r "action_points" = some (.arr (dedupJ []
          (processChunks oracle 1 (chunk_transcript t (safeChunkSize cfg) 250) ([], [])).2)))
    ∧ ((processChunks oracle 1 (chunk_transcript t (safeChunkSize cfg) 250) ([], [])).2 = [] →
        ∀ c, oracle (1 + (chunk_transcript t (safeChunkSize cfg) 250).length) = .ok c →
          ∃ fa, pyGet (parse_json_response c) "action_points".data (.arr []) = .ok fa
            ∧ getField r "action_points" = some fa) := by
  refine ⟨?_, ?_, ?_⟩
  · rw [generate_eq_twoStagePath cfg key ts oracle t sp d ht hk hbig]
    exact twoStagePath_eq_of_finish_ok cfg oracle _ _ t sp d r hsome hok
  · intro hne
    exact twoStageFinish_actions_dedup oracle _ _ _ _ _ _ _ hok hne
  · intro he
    exact twoStageFinish_actions_final oracle _ _ _ _ _ _ _ hok he

/-- The stub of the spec's success scenario: every chunk call answers
`{"summary": "X", "action_points": ["A","B"]}`, the consolidation answers
`{"summary": "Final", "action_points": ["Z"]}`. -/
def stubSuccessOracle : Nat → Except Exn (List Char) := fun i =>
  ([.ok "T".data,
    .ok "\x7b\"summary\": \"X\", \"action_points\": [\"A\",\"B\"]\x7d".data,
    .ok "\x7b\"summary\": \"X\", \"action_points\": [\"A\",\"B\"]\x7d".data,
    .ok "\x7b\"summary\": \"X\", \"action_points\": [\"A\",\"B\"]\x7d".data,
    .ok "\x7b\"summary\": \"X\", \"action_points\": [\"A\",\"B\"]\x7d".data,
    .ok "\x7b\"summary\": \"Final\", \"action_points\": [\"Z\"]\x7d".data] :
    List (Except Exn (List Char))).getD i (.error .apiError)

/-- Witness for C9-amended: the spec's scenario — four chunks each
contributing `["A","B"]` dedupe to `["A","B"]`. -/
theorem claim_C9_amended_witness :
    getField (generate_meeting_minutes ⟨"m".data, 12, 4⟩ "k".data "TS".data
        stubSuccessOracle bigTranscript ["S1".data] 7200) "action_points"
      = some (.arr [Json.str "A".data, Json.str "B".data]) := by
  have hpa : (processChunks stubSuccessOracle 1
      (chunk_transcript bigTranscript (safeChunkSize ⟨"m".data, 12, 4⟩) 250) ([], [])).2 =
      [Json.str "A".data, Json.str "B".data, Json.str "A".data, Json.str "B".data,
       Json.str "A".data, Json.str "B".data, Json.str "A".data, Json.str "B".data] := rfl
  have h := claim_C9_amended ⟨"m".data, 12, 4⟩ "k".data "TS".data stubSuccessOracle
    bigTranscript ["S1".data] 7200 (by decide) (by decide) (by decide) (by decide)
    (mkRecord "T".data "02:00:00".data (.str "Final".data)
      (.arr [Json.str "A".data, Json.str "B".data]) bigTranscript ["S1".data]) rfl
  rw [h.1, h.2.1 (by rw [hpa]; exact List.cons_ne_nil _ _)]
  rfl

/-- The oracle whose second chunk answer carries an *unhashable* action point
(`[["A"]]`): the point is collected, the consolidation succeeds, but
`dict.fromkeys` raises `TypeError` and the top-level handler degrades the
whole call to the fallback record. -/
def stubUnhashableOracle : Nat → Except Exn (List Char) := fun i =>
  ([.ok "T".data,
    .ok "\x7b\"summary\": \"X\", \"action_points\": [[\"A\"]]\x7d".data,
    .error .valueError, .error .valueError, .error .valueError,
    .ok "\x7b\"summary\": \"Y\", \"action_points\": []\x7d".data] :
    List (Except Exn (List Char))).getD i (.error .apiError)

/-- **C9 counterexample.** A chunk produced the non-empty summary `"X"` and
the action point `["A"]` was collected, yet the returned `action_points` is
the fallback `[]` — not the claimed deduplicated union `[["A"]]` — because
deduplication raises on the unhashable element. -/
theorem claim_C9_counterexample :
    (processChunks stubUnhashableOracle 1
      (chunk_transcript bigTranscript (safeChunkSize ⟨"m".data, 12, 4⟩) 250) ([], [])).1 =
      ["X".data]
    ∧ (processChunks stubUnhashableOracle 1
        (chunk_transcript bigTranscript (safeChunkSize ⟨"m".data, 12, 4⟩) 250) ([], [])).2 =
        [Json.arr [Json.str "A".data]]
    ∧ dedupJ [] [Json.arr [Json.str "A".data]] = [Json.arr [Json.str "A".data]]
    ∧ getField (generate_meeting_minutes ⟨"m".data, 12, 4⟩ "k".data "TS".data
        stubUnhashableOracle bigTranscript ["S1".data] 7200) "action_points" =
        some (.arr [])
    ∧ Json.arr [] ≠ Json.arr [Json.arr [Json.str "A".data]] := by
  refine ⟨rfl, rfl, rfl, rfl, ?_⟩
  intro h
  injection h with h'
  exact List.noConfusion h'

/-! ## C10: when the title is empty vs. synthesized -/

/-- **C10** (confirmed). On every fallback return path — empty transcript,
missing API credential, no chunk summary, or an uncaught error in the
consolidation / single-shot stage — the returned `title` is the empty
string (even when the title call itself succeeded); the synthesized
`"Meeting <timestamp>"` title appears exactly on the non-fallback results
whose title call failed. -/
theorem claim_C10 (cfg : Config) (key ts : List Char)
    (oracle : Nat → Except Exn (List Char)) (t : List Char) (sp : List (List Char))
    (d : Nat) :
    (t = [] → getField (generate_meeting_minutes cfg key ts oracle t sp d) "title" =
      some (.str []))
    ∧ (t ≠ [] → key = [] →
      getField (generate_meeting_minutes cfg key ts oracle t sp d) "title" =
        some (.str []))
    ∧ (t ≠ [] → key ≠ [] → estimate_tokens t > safeChunkSize cfg →
      (processChunks oracle 1 (chunk_transcript t (safeChunkSize cfg) 250) ([], [])).1 = [] →
      getField (generate_meeting_minutes cfg key ts oracle t sp d) "title" =
        some (.str []))
    ∧ (t ≠ [] → key ≠ [] → estimate_tokens t > safeChunkSize cfg → ∀ e,
      twoStageFinish oracle (1 + (chunk_transcript t (safeChunkSize cfg) 250).length)
        (computeTitle oracle ts) (format_duration d) t sp
        (processChunks oracle 1 (chunk_transcript t (safeChunkSize cfg) 250) ([], [])).2 =
        .error e →
      getField (generate_meeting_minutes cfg key ts oracle t sp d) "title" =
        some (.str []))
    ∧ (t ≠ [] → key ≠ [] → ¬estimate_tokens t > safeChunkSize cfg → ∀ e,
      singleShot oracle 1 (computeTitle oracle ts) (format_duration d) t sp = .error e →
      getField (generate_meeting_minutes cfg key ts oracle t sp d) "title" =
        some (.str []))
    ∧ (t ≠ [] → key ≠ [] → estimate_tokens t > safeChunkSize cfg → ∀ e0,
      oracle 0 = .error e0 →
      (processChunks oracle 1 (chunk_transcript t (safeChunkSize cfg) 250) ([], [])).1 ≠ [] →
      ∀ r, twoStageFinish oracle (1 + (chunk_transcript t (safeChunkSize cfg) 250).length)
        (computeTitle oracle ts) (format_duration d) t sp
        (processChunks oracle 1 (chunk_transcript t (safeChunkSize cfg) 250) ([], [])).2 =
        .ok r →
      getField (generate_meeting_minutes cfg key ts oracle t sp d) "title" =
        some (.str ("Meeting ".data ++ ts)))
    ∧ (t ≠ [] → key ≠ [] → ¬estimate_tokens t > safeChunkSize cfg → ∀ e0,
      oracle 0 = .error e0 →
      ∀ r, singleShot oracle 1 (computeTitle oracle ts) (format_duration d) t sp = .ok r →
      getField (generate_meeting_minutes cfg key ts oracle t sp d) "title" =
        some (.str ("Meeting ".data ++ ts))) := by
  have hct : ∀ e0, oracle 0 = .error e0 → computeTitle oracle ts = "Meeting ".data ++ ts := by
    intro e0 he0
    unfold computeTitle
    rw [he0]
  refine ⟨?_, ?_, ?_, ?_, ?_, ?_, ?_⟩
  · intro h0
    subst h0
    rw [generate_eq_fallback_of_empty]
    rfl
  · intro ht hk
    subst hk
    rw [generate_eq_fallback_of_nokey cfg ts oracle t sp d ht]
    rfl
  · intro ht hk hbig hnone
    rw [generate_eq_twoStagePath cfg key ts oracle t sp d ht hk hbig,
      twoStagePath_eq_fallback_of_noSummary cfg oracle _ _ t sp d hnone]
    rfl
  · intro ht hk hbig e herr
    rw [generate_eq_twoStagePath cfg key ts oracle t sp d ht hk hbig,
      twoStagePath_eq_fallback_of_finish_error cfg oracle _ _ t sp d e herr]
    rfl
  · intro ht hk hsmall e herr
    rw [generate_eq_singleShotPath cfg key ts oracle t sp d ht hk hsmall,
      singleShotPath_eq_fallback_of_error oracle _ _ t sp d e herr]
    rfl
  · intro ht hk hbig e0 he0 hsome r hok
    rw [generate_eq_twoStagePath cfg key ts oracle t sp d ht hk hbig,
      twoStagePath_eq_of_finish_ok cfg oracle _ _ t sp d r hsome hok]
    obtain ⟨s, a, hr⟩ := twoStageFinish_ok_shape oracle _ _ _ _ _ _ _ hok
    rw [hr, getField_mkRecord_title, hct e0 he0]
  · intro ht hk hsmall e0 he0 r hok
    rw [generate_eq_singleShotPath cfg key ts oracle t sp d ht hk hsmall,
      singleShotPath_eq_of_ok oracle _ _ t sp d r hok]
    obtain ⟨s, a, hr⟩ := singleShot_ok_shape oracle _ _ _ _ _ _ hok
    rw [hr, getField_mkRecord_title, hct e0 he0]

/-- Witness for C10: an empty transcript yields the empty title, and the
all-failing two-stage scenario yields the empty title even though a
timestamp-based title had been synthesized internally. -/
theorem claim_C10_witness :
    getField (generate_meeting_minutes ⟨"m".data, 12, 4⟩ "k".data "TS".data
      (fun _ => .error .valueError) [] ["S1".data] 0) "title" = some (.str [])
    ∧ getField (generate_meeting_minutes ⟨"m".data, 12, 4⟩ "k".data "TS".data
        (fun _ => .error .valueError) bigTranscript ["S1".data] 3600) "title" =
        some (.str []) :=
  ⟨(claim_C10 ⟨"m".data, 12, 4⟩ "k".data "TS".data (fun _ => .error .valueError)
      [] ["S1".data] 0).1 rfl,
   (claim_C10 ⟨"m".data, 12, 4⟩ "k".data "TS".data (fun _ => .error .valueError)
      bigTranscript ["S1".data] 3600).2.2.1 (by decide) (by decide) (by decide)
      (by decide)⟩

/-! ## C2: the chunk token budget -/

/-- The transcript of ten `"a."` paragraphs: with `max_chunk_tokens = 1` it
is returned as one single chunk of estimate 7 and ten sentences. -/
def tinyParagraphs : List Char :=
  "a.\na.\na.\na.\na.\na.\na.\na.\na.\na.".data

/-- **C2 counterexample.** With `max_chunk_tokens = 1` (and the default
overlap 250) the whole ten-paragraph transcript is returned as a single
chunk: each paragraph estimates to `2 / 4 = 0` tokens so the running total
never trips the budget check, yet the joined chunk estimates to 7 > 1 and
consists of ten sentences, not one. -/
theorem claim_C2_counterexample :
    chunk_transcript tinyParagraphs 1 250 = [tinyParagraphs]
    ∧ ¬estimate_tokens tinyParagraphs ≤ 1
    ∧ (splitSentences tinyParagraphs).length = 10 := by
  refine ⟨by decide, by decide, by decide⟩

/-- A chunk (as its piece list) satisfies the bound the algorithm actually
maintains: either its piece-summed estimate is within the budget, or it has
at most two pieces (an oversized paragraph or sentence, possibly preceded by
one overlap seed). -/
def chunkOK (maxT : Nat) (c : List (List Char)) : Prop :=
  sumEst c ≤ maxT ∨ c.length ≤ 2

/-- Loop invariant of the chunker: `current_length` is the piece-sum of
`current_chunk`, the open chunk satisfies the bound, and so does every
closed chunk. -/
def ChunkInv (maxT : Nat) (st : CState) : Prop :=
  st.curLen = sumEst st.cur ∧ chunkOK maxT st.cur ∧ ∀ c ∈ st.chunks, chunkOK maxT c

theorem sumEst_append (c : List (List Char)) (s : List Char) :
    sumEst (c ++ [s]) = sumEst c + estimate_tokens s := by
  simp [sumEst]

theorem sChunkStep_inv (maxT : Nat) (st : CState) (s : List Char)
    (h : ChunkInv maxT st) : ChunkInv maxT (sChunkStep maxT st s) := by
  obtain ⟨h1, h2, h3⟩ := h
  unfold sChunkStep
  split
  · rename_i hle
    refine ⟨by simp [sumEst_append, h1], ?_, h3⟩
    left
    rw [sumEst_append, ← h1]
    exact hle
  · refine ⟨by simp [sumEst], by right; simp, ?_⟩
    intro c hc
    rcases List.mem_append.mp hc with hm | hm
    · exact h3 c hm
    · rcases he : st.cur.isEmpty with _ | _ <;> rw [he] at hm
      · simp at hm
        subst hm
        exact h2
      · simp at hm

theorem foldl_sChunkStep_inv (maxT : Nat) :
    ∀ (l : List (List Char)) (st : CState), ChunkInv maxT st →
      ChunkInv maxT (l.foldl (sChunkStep maxT) st) := by
  intro l
  induction l with
  | nil => intro st h; exact h
  | cons s rest ih => intro st h; exact ih _ (sChunkStep_inv maxT st s h)

theorem pChunkStep_inv (maxT ovT : Nat) (st : CState) (p : List Char)
    (h : ChunkInv maxT st) : ChunkInv maxT (pChunkStep maxT ovT st p) := by
  obtain ⟨h1, h2, h3⟩ := h
  unfold pChunkStep
  split
  · exact ⟨h1, h2, h3⟩
  · dsimp only
    split
    · -- a new paragraph overflows a non-empty buffer: close it, seed the next
      refine ⟨?_, ?_, ?_⟩
      · rcases hC : (0 < ovT && !st.ov.isEmpty) with _ | _ <;> simp [hC, sumEst]
      · rcases hC : (0 < ovT && !st.ov.isEmpty) with _ | _ <;> simp [hC, chunkOK]
      · intro c hc
        rcases List.mem_append.mp hc with hm | hm
        · exact h3 c hm
        · simp at hm
          subst hm
          exact h2
    · split
      · exact foldl_sChunkStep_inv maxT _ st ⟨h1, h2, h3⟩
      · -- the paragraph fits: append it to the open chunk
        rename_i hnotover hnotbig
        have hbound : st.curLen + estimate_tokens p ≤ maxT := by
          rcases he : st.cur.isEmpty with _ | _
          · rw [Bool.not_eq_true] at hnotover
            rw [Bool.and_eq_false_iff] at hnotover
            rcases hnotover with hlt | hcur
            · simp only [decide_eq_false_iff_not, Nat.not_lt] at hlt
              omega
            · rw [he] at hcur
              simp at hcur
          · have : st.cur = [] := List.isEmpty_iff.mp he
            rw [this] at h1
            simp [sumEst] at h1
            simp only [Nat.not_lt] at hnotbig
            omega
        have key : ChunkInv maxT
            { st with cur := st.cur ++ [p], curLen := st.curLen + estimate_tokens p } := by
          refine ⟨by simp [sumEst_append, h1], ?_, h3⟩
          left
          rw [sumEst_append, ← h1]
          exact hbound
        split
        · exact key
        · split
          · exact key
          · exact key

theorem foldl_pChunkStep_inv (maxT ovT : Nat) :
    ∀ (l : List (List Char)) (st : CState), ChunkInv maxT st →
      ChunkInv maxT (l.foldl (pChunkStep maxT ovT) st) := by
  intro l
  induction l with
  | nil => intro st h; exact h
  | cons s rest ih => intro st h; exact ih _ (pChunkStep_inv maxT ovT st s h)

/-- **C2 amended.** The bound the chunker actually guarantees, stated on the
piece lists accumulated before `'\n'`-joining and before the 12-chunk
consolidation pass: every accumulated chunk either has piece-summed
estimated size at most `max_chunk_tokens`, or consists of at most two pieces
(a single oversized sentence or paragraph, possibly preceded by one overlap
seed). The claimed bound on the *returned* chunks fails because the running
total `current_length` undercounts the joined chunk (integer-division
estimates are not additive and the `'\n'` separators are uncounted), because
an oversized paragraph arriving while the buffer is non-empty is moved whole
(with an uncapped overlap seed) instead of being sentence-split, and because
the 12-chunk consolidation merges chunks without re-checking the budget. -/
theorem claim_C2_amended (transcript_text : List Char) (maxT ovT : Nat)
    (c : List (List Char)) (hc : c ∈ chunksRaw transcript_text maxT ovT) :
    sumEst c ≤ maxT ∨ c.length ≤ 2 := by
  have hInv : ChunkInv maxT
      ((splitChar '\n' transcript_text).foldl (pChunkStep maxT ovT) ⟨[], [], 0, []⟩) :=
    foldl_pChunkStep_inv maxT ovT _ _ ⟨rfl, by left; simp [sumEst], by simp⟩
  unfold chunksRaw at hc
  dsimp only at hc
  rcases List.mem_append.mp hc with hm | hm
  · exact hInv.2.2 c hm
  · rcases he : ((splitChar '\n' transcript_text).foldl (pChunkStep maxT ovT)
      ⟨[], [], 0, []⟩).cur.isEmpty with _ | _ <;> rw [he] at hm
    · simp at hm
      subst hm
      exact hInv.2.1
    · simp at hm

/-- Witness for C2-amended at the counterexample transcript: the single
accumulated chunk has ten pieces and piece-sum 0 ≤ 1. -/
theorem claim_C2_amended_witness :
    sumEst ["a.".data, "a.".data, "a.".data, "a.".data, "a.".data, "a.".data,
      "a.".data, "a.".data, "a.".data, "a.".data] ≤ 1
    ∨ (["a.".data, "a.".data, "a.".data, "a.".data, "a.".data, "a.".data,
      "a.".data, "a.".data, "a.".data, "a.".data] : List (List Char)).length ≤ 2 :=
  claim_C2_amended tinyParagraphs 1 250 _ (by decide)

end MeetingMinutes
